import Mathlib

/-!
Shallow embedding of the grid-shape and footprint-placement core of the
GHClaudeDungeonGen plugin (Source/GHClaudeDungeonGen/Private/Rooms/MasterRoom.cpp,
together with the types of Public/Types/GridTypes.h and RoomShapeTypes.h).

The sparse cell grid (TMap from FIntPoint to FGridCell) is modelled as an
association list with the TMap access semantics (lookup and in-place update by
key).  Machine integers (int32) are modelled as Int; float selection weights
are modelled as rationals.  The engine-side effects of a placement (creating a
static-mesh component from a soft mesh reference) are collapsed into a single
observable: whether the mesh reference resolves to a loaded mesh
(FMeshPlacementData.meshLoads below); every grid-state transition is translated
directly from the source.
-/

namespace DungeonGen

/-- Cell occupancy states, from ECellState in GridTypes.h. -/
inductive ECellState where
  | Unoccupied
  | Occupied
  | Reserved
  | Excluded
deriving DecidableEq, Repr

/-- Integer grid coordinates (FIntPoint). -/
structure GridCoord where
  x : Int
  y : Int
deriving DecidableEq, Repr

/-- One grid cell (FGridCell): stored coordinates, occupancy state and the four
wall flags.  World position, doorway flags and the occupying-actor pointer are
engine-side data never read by the placement logic and are omitted. -/
structure FGridCell where
  GridCoordinates : GridCoord
  CellState : ECellState
  bHasNorthWall : Bool
  bHasEastWall : Bool
  bHasSouthWall : Bool
  bHasWestWall : Bool
deriving DecidableEq, Repr

/-- A fresh Unoccupied cell as constructed by InitializeGrid. -/
def newUnoccupiedCell (c : GridCoord) : FGridCell :=
  { GridCoordinates := c
    CellState := ECellState.Unoccupied
    bHasNorthWall := false
    bHasEastWall := false
    bHasSouthWall := false
    bHasWestWall := false }

/-- The runtime grid: TMap from FIntPoint to FGridCell, as an association list. -/
abbrev Grid := List (GridCoord × FGridCell)

/-- TMap::Find by key (first entry with the key; TMap keys are unique). -/
def findCell : Grid → GridCoord → Option FGridCell
  | [], _ => none
  | (k, cell) :: rest, c => if k = c then some cell else findCell rest c

/-- AMasterRoom::IsValidGridPosition: RuntimeGrid.Contains(GridCoord). -/
def IsValidGridPosition (g : Grid) (c : GridCoord) : Bool :=
  (findCell g c).isSome

/-- In-place mutation of the cell stored under a key (writing through the
pointer returned by TMap::Find). -/
def updateCell : Grid → GridCoord → (FGridCell → FGridCell) → Grid
  | [], _, _ => []
  | (k, cell) :: rest, c, f =>
    if k = c then (k, f cell) :: rest else (k, cell) :: updateCell rest c f

/-- Placement descriptor (FMeshPlacementData in GridTypes.h).  meshLoads
abstracts the engine contract of the soft mesh reference: Mesh.IsValid(),
LoadSynchronous() returning non-null, and NewObject succeeding. -/
structure FMeshPlacementData where
  meshLoads : Bool
  CellsX : Int
  CellsY : Int
  SelectionWeight : ℚ
  bAllowRotation : Bool
deriving DecidableEq, Repr

/-- The footprint rectangle cells visited by the nested loops
for Y in [0, CellsY), X in [0, CellsX) at a bottom-left coordinate.
A non-positive extent gives an empty loop, as in C++. -/
def footprintCoords (bl : GridCoord) (cellsX cellsY : Int) : List GridCoord :=
  (List.range cellsY.toNat).flatMap (fun (y : Nat) =>
    (List.range cellsX.toNat).map (fun (x : Nat) =>
      ⟨bl.x + (x : Int), bl.y + (y : Int)⟩))

/-- One footprint-cell check shared by TryPlaceMultiCellMesh,
ReserveCellsForFootprint and CheckFootprintOverlap: the coordinate is present
in the grid and its cell is Unoccupied. -/
def cellIsFree (g : Grid) (c : GridCoord) : Bool :=
  match findCell g c with
  | some cell => cell.CellState = ECellState.Unoccupied
  | none => false

/-- Setting CellState through the pointer obtained from TMap::Find. -/
def markCellState (s : ECellState) (g : Grid) (c : GridCoord) : Grid :=
  updateCell g c (fun cell => { cell with CellState := s })

/-- AMasterRoom::TryPlaceMultiCellMesh (MasterRoom.cpp lines 706-778).
Returns the bool result together with the resulting grid.  The early-return
check loop over the footprint is the List.all below; mesh loading and component
creation happen after the checks and before any cell is marked Occupied. -/
def TryPlaceMultiCellMesh (g : Grid) (bl : GridCoord) (pd : FMeshPlacementData) :
    Bool × Grid :=
  if !(IsValidGridPosition g bl) then (false, g)
  else if !((footprintCoords bl pd.CellsX pd.CellsY).all (cellIsFree g)) then (false, g)
  else if !pd.meshLoads then (false, g)
  else
    (true, (footprintCoords bl pd.CellsX pd.CellsY).foldl
      (markCellState ECellState.Occupied) g)

/-- AMasterRoom::ReserveCellsForFootprint (lines 780-815): check every
footprint cell, then mark them all Reserved. -/
def ReserveCellsForFootprint (g : Grid) (bl : GridCoord) (fx fy : Int) :
    Bool × Grid :=
  if !((footprintCoords bl fx fy).all (cellIsFree g)) then (false, g)
  else
    (true, (footprintCoords bl fx fy).foldl (markCellState ECellState.Reserved) g)

/-- AMasterRoom::CheckFootprintOverlap (lines 817-839): true when some
footprint coordinate is out of the grid or its cell is not Unoccupied. -/
def CheckFootprintOverlap (g : Grid) (bl : GridCoord) (fx fy : Int) : Bool :=
  !((footprintCoords bl fx fy).all (cellIsFree g))

/-- Whether a forced placement is rejected at the moment it is processed:
the overlap check of ApplyForcedPlacements (lines 596, 617, 637). -/
def forcedRejected (g : Grid) (p : GridCoord × FMeshPlacementData) : Bool :=
  CheckFootprintOverlap g p.1 p.2.CellsX p.2.CellsY

/-- One loop body of AMasterRoom::ApplyForcedPlacements (lines 590-609 and the
two identical loops for walls and ceilings): on overlap the success flag is
cleared and the placement is skipped; otherwise the footprint is reserved and
TryPlaceMultiCellMesh is attempted on the reserved cells. -/
def applyOneForced (acc : Bool × Grid) (p : GridCoord × FMeshPlacementData) :
    Bool × Grid :=
  let (flag, g) := acc
  let (bl, pd) := p
  if CheckFootprintOverlap g bl pd.CellsX pd.CellsY then (false, g)
  else
    let (ok, g1) := ReserveCellsForFootprint g bl pd.CellsX pd.CellsY
    if ok then (flag, (TryPlaceMultiCellMesh g1 bl pd).2) else (flag, g1)

/-- AMasterRoom::ApplyForcedPlacements (lines 585-652): the forced floor, wall
and ceiling placements are processed in order, threading one success flag
initialised to true. -/
def ApplyForcedPlacements (g : Grid)
    (floorPl wallPl ceilPl : List (GridCoord × FMeshPlacementData)) :
    Bool × Grid :=
  (floorPl ++ wallPl ++ ceilPl).foldl applyOneForced (true, g)

/-- Recursive statement that every forced placement, processed in order against
the evolving grid, passes its overlap check. -/
def noRejects (g : Grid) : List (GridCoord × FMeshPlacementData) → Bool
  | [] => true
  | p :: ps => !forcedRejected g p && noRejects (applyOneForced (true, g) p).2 ps

/-- Room shape selectors, from ERoomShape in RoomShapeTypes.h. -/
inductive ERoomShape where
  | Rectangle
  | Custom
  | LShape
  | TShape
  | UShape
deriving DecidableEq, Repr

/-- FRoomShapeDefinition (RoomShapeTypes.h): rectangle extents and the
optional explicit 0/1 layout for Custom shapes. -/
structure FRoomShapeDefinition where
  ShapeType : ERoomShape
  RectWidth : Int
  RectHeight : Int
  CustomCellLayout : List Int
  CustomLayoutWidth : Int
  CustomLayoutHeight : Int
deriving DecidableEq, Repr

/-- The rectangular nested loops of InitializeGrid (for Y in [0,H), X in
[0,W), add a fresh Unoccupied cell).  The coordinates are pairwise distinct,
so each TMap::Add appends a new entry. -/
def rectCells (w h : Int) : Grid :=
  (List.range h.toNat).flatMap (fun (y : Nat) =>
    (List.range w.toNat).map (fun (x : Nat) =>
      let c : GridCoord := ⟨(x : Int), (y : Int)⟩
      (c, newUnoccupiedCell c)))

/-- The Custom branch of InitializeGrid (lines 869-893): when the layout array
has exactly CustomLayoutWidth * CustomLayoutHeight entries, a cell is added at
(x, y) exactly when the entry at index y * CustomLayoutWidth + x equals 1;
otherwise the grid stays empty. -/
def customCells (sd : FRoomShapeDefinition) : Grid :=
  if (sd.CustomCellLayout.length : Int) =
      sd.CustomLayoutWidth * sd.CustomLayoutHeight then
    (List.range sd.CustomLayoutHeight.toNat).flatMap (fun y =>
      (List.range sd.CustomLayoutWidth.toNat).filterMap (fun (x : Nat) =>
        if sd.CustomCellLayout.getD (y * sd.CustomLayoutWidth.toNat + x) 0 = 1 then
          let c : GridCoord := ⟨(x : Int), (y : Int)⟩
          some (c, newUnoccupiedCell c)
        else none))
  else []

/-- The LShape extension loops (lines 911-928): columns [W, W + max(1, W/2))
of rows [0, max(1, H/2)).  C++ int32 division truncates toward zero. -/
def lShapeExtension (w h : Int) : Grid :=
  let extW := max 1 (Int.tdiv w 2)
  let extH := max 1 (Int.tdiv h 2)
  (List.range extH.toNat).flatMap (fun (y : Nat) =>
    (List.range extW.toNat).map (fun (x : Nat) =>
      let c : GridCoord := ⟨w + (x : Int), (y : Int)⟩
      (c, newUnoccupiedCell c)))

/-- The TShape top-extension loops (lines 947-962). -/
def tShapeExtension (w h : Int) : Grid :=
  let extW := max 1 (Int.tdiv w 3)
  let extH := max 1 (Int.tdiv h 3)
  let startX := Int.tdiv (w - extW) 2
  (List.range extH.toNat).flatMap (fun (y : Nat) =>
    (List.range extW.toNat).map (fun (x : Nat) =>
      let c : GridCoord := ⟨startX + (x : Int), h + (y : Int)⟩
      (c, newUnoccupiedCell c)))

/-- The UShape loops (lines 966-1010): bottom bar plus two vertical
extensions; the three coordinate regions are pairwise disjoint. -/
def uShapeCells (w h : Int) : Grid :=
  let barH := Int.tdiv h 3
  let extW := Int.tdiv w 3
  ((List.range barH.toNat).flatMap (fun (y : Nat) =>
    (List.range w.toNat).map (fun (x : Nat) =>
      let c : GridCoord := ⟨(x : Int), (y : Int)⟩
      (c, newUnoccupiedCell c))))
  ++ ((List.range (h.toNat - barH.toNat)).flatMap (fun (y : Nat) =>
    (List.range extW.toNat).map (fun (x : Nat) =>
      let c : GridCoord := ⟨(x : Int), barH + (y : Int)⟩
      (c, newUnoccupiedCell c))))
  ++ ((List.range (h.toNat - barH.toNat)).flatMap (fun (y : Nat) =>
    (List.range extW.toNat).map (fun (x : Nat) =>
      let c : GridCoord := ⟨w - extW + (x : Int), barH + (y : Int)⟩
      (c, newUnoccupiedCell c))))

/-- AMasterRoom::InitializeGrid (lines 841-1030): build the grid for the
selected shape; unknown shapes fall back to the rectangle. -/
def InitializeGrid (sd : FRoomShapeDefinition) : Grid :=
  match sd.ShapeType with
  | ERoomShape.Rectangle => rectCells sd.RectWidth sd.RectHeight
  | ERoomShape.Custom => customCells sd
  | ERoomShape.LShape =>
      rectCells sd.RectWidth sd.RectHeight ++
        lShapeExtension sd.RectWidth sd.RectHeight
  | ERoomShape.TShape =>
      rectCells sd.RectWidth sd.RectHeight ++
        tShapeExtension sd.RectWidth sd.RectHeight
  | ERoomShape.UShape => uShapeCells sd.RectWidth sd.RectHeight

/-- Wall-need test for a neighbor coordinate (lines 396-404): a wall is set
when the neighbor cell does not exist or is Unoccupied. -/
def neighborNeedsWall (g : Grid) (c : GridCoord) : Bool :=
  match findCell g c with
  | none => true
  | some cell => cell.CellState = ECellState.Unoccupied

/-- The four flag assignments of lines 401-404, reading the neighbor states of
the stored coordinates of the cell. -/
def setWallFlags (g : Grid) (cell : FGridCell) : FGridCell :=
  { cell with
    bHasNorthWall := neighborNeedsWall g
      ⟨cell.GridCoordinates.x, cell.GridCoordinates.y + 1⟩
    bHasEastWall := neighborNeedsWall g
      ⟨cell.GridCoordinates.x + 1, cell.GridCoordinates.y⟩
    bHasSouthWall := neighborNeedsWall g
      ⟨cell.GridCoordinates.x, cell.GridCoordinates.y - 1⟩
    bHasWestWall := neighborNeedsWall g
      ⟨cell.GridCoordinates.x - 1, cell.GridCoordinates.y⟩ }

/-- One iteration of the wall-derivation loop of AMasterRoom::GenerateWalls
(lines 379-405): cells that are not Occupied are skipped. -/
def wallStep (acc : Grid) (k : GridCoord) : Grid :=
  match findCell acc k with
  | none => acc
  | some cell =>
    if cell.CellState = ECellState.Occupied then
      updateCell acc k (setWallFlags acc)
    else acc

/-- The wall-flag derivation of AMasterRoom::GenerateWalls: iterate over the
grid entries and update the flags of every Occupied cell.  The subsequent
mesh-spawning part of GenerateWalls (lines 407-478) reads the flags but does
not modify the grid. -/
def GenerateWalls (g : Grid) : Grid :=
  (g.map Prod.fst).foldl wallStep g

/-- FRandomStream, modelled from the engine contract of a seeded deterministic
stream: one LCG state advanced on every draw.  Its exact constants do not
matter to any claim; what matters is that every draw is a function of the
stream state alone. -/
structure FRandomStream where
  initialSeed : Int
  seed : Int
deriving DecidableEq, Repr

/-- The LCG step of the engine stream, on the 32-bit state. -/
def mutateSeed (s : Int) : Int :=
  (s * 196314165 + 907633515) % 4294967296

/-- RandomStream.Initialize(GenerationSeed). -/
def FRandomStream.ofSeed (s : Int) : FRandomStream :=
  ⟨s % 4294967296, s % 4294967296⟩

/-- FRand: advance the state and produce a rational in [0, 1) from the top 23
bits of the new state. -/
def FRandomStream.frand (rs : FRandomStream) : ℚ × FRandomStream :=
  let s1 := mutateSeed rs.seed
  (((s1 / 512 : Int) : ℚ) / 8388608, ⟨rs.initialSeed, s1⟩)

/-- FRandRange(Min, Max) = Min + (Max - Min) * FRand(). -/
def FRandomStream.frandRange (rs : FRandomStream) (lo hi : ℚ) :
    ℚ × FRandomStream :=
  let (f, rs1) := rs.frand
  (lo + (hi - lo) * f, rs1)

/-- RandRange(Min, Max): an integer in [Min, Max] from one FRand draw. -/
def FRandomStream.randRange (rs : FRandomStream) (lo hi : Int) :
    Int × FRandomStream :=
  let (f, rs1) := rs.frand
  (lo + Rat.floor (f * ((hi - lo + 1 : Int) : ℚ)), rs1)

/-- Footprint area used by the sort comparator of GenerateFloor
(lines 284-288). -/
def tileArea (t : FMeshPlacementData) : Int :=
  t.CellsX * t.CellsY

/-- SortedTiles: the floor tiles sorted largest-area-first.  TArray::Sort with
the comparator AreaA > AreaB yields a list that is pairwise non-increasing in
area; the order of equal areas is unspecified in the source. -/
def sortTilesByAreaDesc (ts : List FMeshPlacementData) : List FMeshPlacementData :=
  ts.mergeSort (fun a b => tileArea b ≤ tileArea a)

/-- The single-cell test of lines 306 and 333: CellsX == 1 && CellsY == 1. -/
def isSingleCell (t : FMeshPlacementData) : Bool :=
  t.CellsX = 1 && t.CellsY = 1

/-- The inner tile loop of the multi-cell pass (lines 303-316): try each
sorted tile in turn, skipping single-cell tiles, until one placement
succeeds. -/
def tryTilesAt (g : Grid) (c : GridCoord) : List FMeshPlacementData → Grid
  | [] => g
  | t :: rest =>
    if isSingleCell t then tryTilesAt g c rest
    else
      match TryPlaceMultiCellMesh g c t with
      | (true, g1) => g1
      | (false, _) => tryTilesAt g c rest

/-- One iteration of the multi-cell pass (lines 291-317): cells that are no
longer Unoccupied are skipped. -/
def multiCellStep (sorted : List FMeshPlacementData) (acc : Grid) (k : GridCoord) :
    Grid :=
  match findCell acc k with
  | none => acc
  | some cell =>
    if cell.CellState = ECellState.Unoccupied then
      tryTilesAt acc cell.GridCoordinates sorted
    else acc

/-- The multi-cell placement pass of GenerateFloor, iterating the grid
entries. -/
def multiCellPass (g : Grid) (sorted : List FMeshPlacementData) : Grid :=
  (g.map Prod.fst).foldl (multiCellStep sorted) g

/-- TotalWeight: the running sum of the selection weights (lines 342-346). -/
def totalWeight (ts : List FMeshPlacementData) : ℚ :=
  (ts.map (fun t => t.SelectionWeight)).sum

/-- The cumulative-weight selection loop of lines 349-359, tracking the index
of the chosen candidate: starting from an accumulated weight, pick the first
tile whose accumulated upper bound reaches the sampled value. -/
def weightedPickIdx (r acc : ℚ) :
    List FMeshPlacementData → Option (Nat × FMeshPlacementData)
  | [] => none
  | t :: rest =>
    if r ≤ acc + t.SelectionWeight then some (0, t)
    else (weightedPickIdx r (acc + t.SelectionWeight) rest).map
      (fun p => (p.1 + 1, p.2))

/-- The tile chosen by the cumulative-weight loop for a sampled value. -/
def weightedPick (r : ℚ) (ts : List FMeshPlacementData) :
    Option FMeshPlacementData :=
  (weightedPickIdx r 0 ts).map Prod.snd

/-- The body of the single-cell fill for one still-Unoccupied cell
(lines 339-360): if single-cell tiles exist, draw FRandRange(0, TotalWeight),
select by cumulative weight and attempt the placement. -/
def fillOneCell (g : Grid) (c : GridCoord) (singles : List FMeshPlacementData)
    (rs : FRandomStream) : Grid × FRandomStream :=
  if singles.isEmpty then (g, rs)
  else
    let (r, rs1) := rs.frandRange 0 (totalWeight singles)
    match weightedPick r singles with
    | some t => ((TryPlaceMultiCellMesh g c t).2, rs1)
    | none => (g, rs1)

/-- One iteration of the single-cell pass (lines 320-361); SingleCellTiles is
the single-cell filter of the floor-tile list, recomputed identically at every
iteration in the source. -/
def singleCellStep (singles : List FMeshPlacementData)
    (acc : Grid × FRandomStream) (k : GridCoord) : Grid × FRandomStream :=
  match findCell acc.1 k with
  | none => acc
  | some cell =>
    if cell.CellState = ECellState.Unoccupied then
      fillOneCell acc.1 cell.GridCoordinates singles acc.2
    else acc

/-- The single-cell fill pass of GenerateFloor. -/
def singleCellPass (g : Grid) (allTiles : List FMeshPlacementData)
    (rs : FRandomStream) : Grid × FRandomStream :=
  (g.map Prod.fst).foldl (singleCellStep (allTiles.filter isSingleCell)) (g, rs)

/-- AMasterRoom::GenerateFloor (lines 268-362): with a non-empty tile list,
sort largest-area-first, run the multi-cell pass, then fill the remaining
Unoccupied cells with weighted single-cell tiles.  An empty tile list (or a
missing floor data asset) leaves the grid untouched. -/
def GenerateFloor (g : Grid) (floorTiles : List FMeshPlacementData)
    (rs : FRandomStream) : Grid × FRandomStream :=
  if floorTiles.isEmpty then (g, rs)
  else
    singleCellPass (multiCellPass g (sortTilesByAreaDesc floorTiles)) floorTiles rs

/-- The rotation draw of AMasterRoom::SpawnMeshAtPosition (lines 2146-2153):
when rotation is allowed, draw RandRange(0, 3) 90-degree steps from the
stream. -/
def SpawnMeshRotationSteps (pd : FMeshPlacementData) (rs : FRandomStream) :
    Int × FRandomStream :=
  if pd.bAllowRotation then rs.randRange 0 3 else (0, rs)

/-- The inputs of AMasterRoom::GenerateRoom that the generation logic reads:
the loaded RoomData (allowed shapes and floor tiles), the shape override and
the forced placements. -/
structure RoomGenInputs where
  allowedShapes : List FRoomShapeDefinition
  bUseShapeOverride : Bool
  shapeOverride : FRoomShapeDefinition
  floorTiles : List FMeshPlacementData
  forcedFloor : List (GridCoord × FMeshPlacementData)
  forcedWall : List (GridCoord × FMeshPlacementData)
  forcedCeil : List (GridCoord × FMeshPlacementData)
deriving Repr

/-- AMasterRoom::GenerateRoom (lines 165-232): seed the stream (from the
ambient engine random value when bUseRandomSeed, else from GenerationSeed),
select a shape, build the grid, apply forced placements first (their boolean
result is only logged), then generate the floor and derive the walls.
GenerateCeiling (lines 481-583) neither mutates the grid nor draws from the
stream and is omitted from the returned state.  Returns none exactly when
generation aborts (no shape available). -/
def GenerateRoom (bUseRandomSeed : Bool) (envRand : Int) (generationSeed : Int)
    (inp : RoomGenInputs) : Option (Grid × FRandomStream) :=
  let seed := if bUseRandomSeed then envRand else generationSeed
  let rs0 := FRandomStream.ofSeed seed
  let shapeSel : Option FRoomShapeDefinition × FRandomStream :=
    if inp.bUseShapeOverride then (some inp.shapeOverride, rs0)
    else if 0 < inp.allowedShapes.length then
      let (i, rs1) := rs0.randRange 0 ((inp.allowedShapes.length : Int) - 1)
      (inp.allowedShapes.get? i.toNat, rs1)
    else (none, rs0)
  match shapeSel with
  | (none, _) => none
  | (some shape, rs1) =>
    let g0 := InitializeGrid shape
    let g1 := (ApplyForcedPlacements g0 inp.forcedFloor inp.forcedWall inp.forcedCeil).2
    let (g2, rs2) := GenerateFloor g1 inp.floorTiles rs1
    some (GenerateWalls g2, rs2)

/-- A grid in which every cell has been marked Occupied: the state of a fully
generated room after every floor placement succeeded, in which the wall
derivation of GenerateWalls runs. -/
def occupyAll (g : Grid) : Grid :=
  g.map (fun p => (p.1, { p.2 with CellState := ECellState.Occupied }))

/-- The rectangle shape definition with the given extents. -/
def rectShape (w h : Int) : FRoomShapeDefinition :=
  { ShapeType := ERoomShape.Rectangle
    RectWidth := w
    RectHeight := h
    CustomCellLayout := []
    CustomLayoutWidth := 0
    CustomLayoutHeight := 0 }

/-- A cell already marked Occupied, for concrete test grids. -/
def cellOccAt (c : GridCoord) : FGridCell :=
  { newUnoccupiedCell c with CellState := ECellState.Occupied }

/-- A cell already marked Reserved, for concrete test grids. -/
def cellResAt (c : GridCoord) : FGridCell :=
  { newUnoccupiedCell c with CellState := ECellState.Reserved }

/-- A loadable single-cell tile of weight 1. -/
def sampleTile1 : FMeshPlacementData :=
  { meshLoads := true, CellsX := 1, CellsY := 1, SelectionWeight := 1,
    bAllowRotation := true }

/-- A single-cell tile whose soft mesh reference fails to resolve. -/
def sampleTileNoMesh : FMeshPlacementData :=
  { meshLoads := false, CellsX := 1, CellsY := 1, SelectionWeight := 1,
    bAllowRotation := true }

/-- A degenerate descriptor with a zero-width footprint. -/
def sampleTileZeroX : FMeshPlacementData :=
  { meshLoads := true, CellsX := 0, CellsY := 1, SelectionWeight := 1,
    bAllowRotation := true }

/-- The one-free-cell grid at the origin. -/
def grid1Free : Grid := [(⟨0, 0⟩, newUnoccupiedCell ⟨0, 0⟩)]

/-- The one-occupied-cell grid at the origin. -/
def grid1Occ : Grid := [(⟨0, 0⟩, cellOccAt ⟨0, 0⟩)]

/-- An Occupied origin cell with a Reserved east neighbor. -/
def gridOccRes : Grid :=
  [(⟨0, 0⟩, cellOccAt ⟨0, 0⟩), (⟨1, 0⟩, cellResAt ⟨1, 0⟩)]

/-- A minimal concrete room-generation input: a fixed 1 x 1 rectangle override
and no tiles or forced placements. -/
def sampleInputs : RoomGenInputs :=
  { allowedShapes := []
    bUseShapeOverride := true
    shapeOverride := rectShape 1 1
    floorTiles := []
    forcedFloor := []
    forcedWall := []
    forcedCeil := [] }

/-- A concrete 2 x 2 Custom shape whose layout enables the cells (0,0) and
(1,1) only. -/
def sdCustomSample : FRoomShapeDefinition :=
  { ShapeType := ERoomShape.Custom
    RectWidth := 0
    RectHeight := 0
    CustomCellLayout := [1, 0, 0, 1]
    CustomLayoutWidth := 2
    CustomLayoutHeight := 2 }

/-- Two grids agreeing on presence and occupancy state of every coordinate. -/
def stateEq (g1 g2 : Grid) : Prop :=
  ∀ c, (findCell g1 c).map (fun cell => cell.CellState) =
    (findCell g2 c).map (fun cell => cell.CellState)

/-- Every cell stores the coordinate it is keyed under; true of every grid the
generator builds. -/
def coordWF (g : Grid) : Prop :=
  ∀ c cell, findCell g c = some cell → cell.GridCoordinates = c

section BasicLemmas

theorem findCell_updateCell (g : Grid) (u c : GridCoord)
    (f : FGridCell → FGridCell) :
    findCell (updateCell g u f) c =
      if u = c then (findCell g c).map f else findCell g c := by
  induction g with
  | nil => simp only [updateCell, findCell]; split <;> rfl
  | cons p rest ih =>
    obtain ⟨k, cell⟩ := p
    by_cases hku : k = u
    · subst hku
      by_cases hkc : k = c
      · subst hkc
        simp [updateCell, findCell]
      · simp [updateCell, findCell, hkc, Ne.symm hkc]
    · by_cases hkc : k = c
      · subst hkc
        simp [updateCell, findCell, hku, Ne.symm hku]
      · simp [updateCell, findCell, hku, hkc, ih]

theorem findCell_markCellState (s : ECellState) (g : Grid) (u c : GridCoord) :
    findCell (markCellState s g u) c =
      if u = c then (findCell g c).map (fun cell => { cell with CellState := s })
      else findCell g c := by
  simp [markCellState, findCell_updateCell]

theorem map_setState_idem (s : ECellState) (x : Option FGridCell) :
    Option.map (fun cell => { cell with CellState := s })
        (Option.map (fun cell => { cell with CellState := s }) x) =
      Option.map (fun cell => { cell with CellState := s }) x := by
  cases x <;> rfl

theorem findCell_foldl_mark (s : ECellState) (l : List GridCoord) (g : Grid)
    (c : GridCoord) :
    findCell (l.foldl (markCellState s) g) c =
      if c ∈ l then (findCell g c).map (fun cell => { cell with CellState := s })
      else findCell g c := by
  induction l generalizing g with
  | nil => simp
  | cons a t ih =>
    rw [List.foldl_cons, ih, findCell_markCellState]
    by_cases hat : c ∈ t
    · rw [if_pos hat, if_pos (List.mem_cons_of_mem a hat)]
      by_cases hac : a = c
      · rw [if_pos hac, map_setState_idem]
      · rw [if_neg hac]
    · rw [if_neg hat]
      by_cases hac : a = c
      · subst hac
        rw [if_pos rfl, if_pos (List.mem_cons_self a t)]
      · rw [if_neg hac, if_neg (by simp [hat, Ne.symm hac])]

theorem cellIsFree_eq_true (g : Grid) (c : GridCoord) :
    cellIsFree g c = true ↔
      ∃ cell, findCell g c = some cell ∧
        cell.CellState = ECellState.Unoccupied := by
  cases hf : findCell g c <;> simp [cellIsFree, hf]

theorem findCell_some_mem_keys (g : Grid) (c : GridCoord) (cell : FGridCell)
    (h : findCell g c = some cell) : c ∈ g.map Prod.fst := by
  induction g with
  | nil => simp [findCell] at h
  | cons p rest ih =>
    obtain ⟨k, kcell⟩ := p
    by_cases hk : k = c
    · simp [hk]
    · simp only [findCell, if_neg hk] at h
      simp [ih h]

end BasicLemmas

section PlacementLemmas

theorem footprint_not_all_free (g : Grid) (bl : GridCoord) (fx fy : Int)
    (h : ∃ c ∈ footprintCoords bl fx fy,
      findCell g c = none ∨
        ∃ cell, findCell g c = some cell ∧
          cell.CellState ≠ ECellState.Unoccupied) :
    (footprintCoords bl fx fy).all (cellIsFree g) = false := by
  obtain ⟨c, hmem, hbad⟩ := h
  refine List.all_eq_false.mpr ⟨c, hmem, ?_⟩
  intro hfree
  obtain ⟨cell, hcell, hstate⟩ := (cellIsFree_eq_true g c).mp hfree
  rcases hbad with hnone | ⟨cell2, hcell2, hstate2⟩
  · rw [hnone] at hcell; exact Option.noConfusion hcell
  · rw [hcell2] at hcell
    exact hstate2 (by injection hcell with h2; rw [h2] at hstate2 ⊢; exact hstate)

theorem tryPlace_not_all_free (g : Grid) (bl : GridCoord)
    (pd : FMeshPlacementData)
    (h : (footprintCoords bl pd.CellsX pd.CellsY).all (cellIsFree g) = false) :
    TryPlaceMultiCellMesh g bl pd = (false, g) := by
  unfold TryPlaceMultiCellMesh
  by_cases hv : IsValidGridPosition g bl
  · simp [hv, h]
  · simp [hv]

theorem reserve_not_all_free (g : Grid) (bl : GridCoord) (fx fy : Int)
    (h : (footprintCoords bl fx fy).all (cellIsFree g) = false) :
    ReserveCellsForFootprint g bl fx fy = (false, g) := by
  unfold ReserveCellsForFootprint
  simp [h]

theorem tryPlace_preserves_nonfree (g : Grid) (bl : GridCoord)
    (pd : FMeshPlacementData) (c : GridCoord) (cell : FGridCell)
    (hc : findCell g c = some cell)
    (hstate : cell.CellState ≠ ECellState.Unoccupied) :
    findCell (TryPlaceMultiCellMesh g bl pd).2 c = some cell := by
  unfold TryPlaceMultiCellMesh
  by_cases hv : IsValidGridPosition g bl
  · by_cases hall : (footprintCoords bl pd.CellsX pd.CellsY).all (cellIsFree g)
    · by_cases hm : pd.meshLoads
      · simp only [hv, hall, hm, Bool.not_true, Bool.false_eq_true, if_false]
        rw [findCell_foldl_mark]
        have hnotmem : c ∉ footprintCoords bl pd.CellsX pd.CellsY := by
          intro hmem
          obtain ⟨cell2, hcell2, hstate2⟩ :=
            (cellIsFree_eq_true g c).mp (List.all_eq_true.mp hall c hmem)
          rw [hc] at hcell2
          injection hcell2 with h2
          exact hstate (h2 ▸ hstate2)
        rw [if_neg hnotmem, hc]
      · simp [hv, hall, hm, hc]
    · simp [hv, hall, hc]
  · simp [hv, hc]

theorem reserve_preserves_nonfree (g : Grid) (bl : GridCoord) (fx fy : Int)
    (c : GridCoord) (cell : FGridCell)
    (hc : findCell g c = some cell)
    (hstate : cell.CellState ≠ ECellState.Unoccupied) :
    findCell (ReserveCellsForFootprint g bl fx fy).2 c = some cell := by
  unfold ReserveCellsForFootprint
  by_cases hall : (footprintCoords bl fx fy).all (cellIsFree g)
  · simp only [hall, Bool.not_true, Bool.false_eq_true, if_false]
    rw [findCell_foldl_mark]
    have hnotmem : c ∉ footprintCoords bl fx fy := by
      intro hmem
      obtain ⟨cell2, hcell2, hstate2⟩ :=
        (cellIsFree_eq_true g c).mp (List.all_eq_true.mp hall c hmem)
      rw [hc] at hcell2
      injection hcell2 with h2
      exact hstate (h2 ▸ hstate2)
    rw [if_neg hnotmem, hc]
  · simp [hall, hc]

theorem mem_footprintCoords (bl c : GridCoord) (fx fy : Int) :
    c ∈ footprintCoords bl fx fy ↔
      (bl.x ≤ c.x ∧ c.x < bl.x + max fx 0 ∧
       bl.y ≤ c.y ∧ c.y < bl.y + max fy 0) := by
  constructor
  · intro h
    obtain ⟨ys, hys, h2⟩ := List.mem_flatMap.mp h
    obtain ⟨xs, hxs, heq⟩ := List.mem_map.mp h2
    have hys2 := List.mem_range.mp hys
    have hxs2 := List.mem_range.mp hxs
    cases c
    cases heq
    simp only []
    omega
  · rintro ⟨h1, h2, h3, h4⟩
    obtain ⟨cx, cy⟩ := c
    dsimp only at h1 h2 h3 h4
    refine List.mem_flatMap.mpr ⟨(cy - bl.y).toNat, List.mem_range.mpr (by omega),
      List.mem_map.mpr ⟨(cx - bl.x).toNat, List.mem_range.mpr (by omega), ?_⟩⟩
    simp only [GridCoord.mk.injEq]
    constructor <;> omega

theorem bl_mem_footprintCoords (bl : GridCoord) (fx fy : Int)
    (hx : 1 ≤ fx) (hy : 1 ≤ fy) :
    bl ∈ footprintCoords bl fx fy := by
  rw [mem_footprintCoords]
  omega

end PlacementLemmas

section ClaimC1

/-- C1: for every grid and footprint, if some cell of the footprint rectangle
is absent from the grid or has a state other than Unoccupied, then
TryPlaceMultiCellMesh and likewise ReserveCellsForFootprint return false and
return the grid exactly as it was, with no cell partially marked Occupied or
Reserved. -/
theorem C1_failed_placement_is_atomic (g : Grid) (bl : GridCoord)
    (pd : FMeshPlacementData)
    (h : ∃ c ∈ footprintCoords bl pd.CellsX pd.CellsY,
      findCell g c = none ∨
        ∃ cell, findCell g c = some cell ∧
          cell.CellState ≠ ECellState.Unoccupied) :
    TryPlaceMultiCellMesh g bl pd = (false, g) ∧
      ReserveCellsForFootprint g bl pd.CellsX pd.CellsY = (false, g) :=
  have hall := footprint_not_all_free g bl pd.CellsX pd.CellsY h
  ⟨tryPlace_not_all_free g bl pd hall,
    reserve_not_all_free g bl pd.CellsX pd.CellsY hall⟩

/-- C1 witness: a 1 x 1 footprint on the one-occupied-cell grid fails and
returns the grid unchanged. -/
theorem C1_failed_placement_is_atomic_witness :
    TryPlaceMultiCellMesh grid1Occ ⟨0, 0⟩ sampleTile1 = (false, grid1Occ) ∧
      ReserveCellsForFootprint grid1Occ ⟨0, 0⟩ sampleTile1.CellsX
        sampleTile1.CellsY = (false, grid1Occ) :=
  C1_failed_placement_is_atomic grid1Occ ⟨0, 0⟩ sampleTile1
    ⟨⟨0, 0⟩, by decide, Or.inr ⟨cellOccAt ⟨0, 0⟩, by decide, by decide⟩⟩

end ClaimC1

section ClaimC2

/-- C2 counterexample: the claim as stated is false.  First input: the origin
cell of grid1Free exists and is Unoccupied, covering the whole 1 x 1 footprint
of sampleTileNoMesh, yet TryPlaceMultiCellMesh returns false because the soft
mesh reference does not resolve.  Second input: a zero-width footprint has an
empty cell rectangle, so every cell of the rectangle trivially exists and is
Unoccupied, yet placement at a coordinate outside the grid returns false. -/
theorem C2_place_success_counterexample :
    ((∀ c ∈ footprintCoords ⟨0, 0⟩ sampleTileNoMesh.CellsX
        sampleTileNoMesh.CellsY,
        ∃ cell, findCell grid1Free c = some cell ∧
          cell.CellState = ECellState.Unoccupied) ∧
      (TryPlaceMultiCellMesh grid1Free ⟨0, 0⟩ sampleTileNoMesh).1 = false) ∧
    ((footprintCoords ⟨5, 5⟩ sampleTileZeroX.CellsX sampleTileZeroX.CellsY
        = []) ∧
      (TryPlaceMultiCellMesh grid1Free ⟨5, 5⟩ sampleTileZeroX).1 = false) := by
  refine ⟨⟨?_, by decide⟩, by decide, by decide⟩
  intro c hc
  have hc2 : c = ⟨0, 0⟩ := by
    have he : footprintCoords ⟨0, 0⟩ sampleTileNoMesh.CellsX
        sampleTileNoMesh.CellsY = [⟨0, 0⟩] := by decide
    rw [he] at hc
    exact List.mem_singleton.mp hc
  subst hc2
  exact ⟨newUnoccupiedCell ⟨0, 0⟩, by decide, rfl⟩

/-- C2 amended: for a footprint with CellsX, CellsY at least 1 whose mesh
reference resolves, if every cell of the footprint rectangle exists in the
grid and is Unoccupied then TryPlaceMultiCellMesh returns true and afterwards
every cell of the rectangle is marked Occupied. -/
theorem C2_place_success_amended (g : Grid) (bl : GridCoord)
    (pd : FMeshPlacementData)
    (hx : 1 ≤ pd.CellsX) (hy : 1 ≤ pd.CellsY) (hm : pd.meshLoads = true)
    (hfree : ∀ c ∈ footprintCoords bl pd.CellsX pd.CellsY,
      ∃ cell, findCell g c = some cell ∧
        cell.CellState = ECellState.Unoccupied) :
    (TryPlaceMultiCellMesh g bl pd).1 = true ∧
      ∀ c ∈ footprintCoords bl pd.CellsX pd.CellsY,
        ∃ cell, findCell (TryPlaceMultiCellMesh g bl pd).2 c = some cell ∧
          cell.CellState = ECellState.Occupied := by
  have hall : (footprintCoords bl pd.CellsX pd.CellsY).all (cellIsFree g)
      = true :=
    List.all_eq_true.mpr fun c hc => (cellIsFree_eq_true g c).mpr (hfree c hc)
  have hblv : IsValidGridPosition g bl = true := by
    obtain ⟨cell, hcell, _⟩ :=
      hfree bl (bl_mem_footprintCoords bl pd.CellsX pd.CellsY hx hy)
    simp [IsValidGridPosition, hcell]
  have hplace : TryPlaceMultiCellMesh g bl pd =
      (true, (footprintCoords bl pd.CellsX pd.CellsY).foldl
        (markCellState ECellState.Occupied) g) := by
    unfold TryPlaceMultiCellMesh
    rw [hblv, hall, hm]
    rfl
  refine ⟨by rw [hplace], fun c hc => ?_⟩
  obtain ⟨cell, hcell, _⟩ := hfree c hc
  refine ⟨{ cell with CellState := ECellState.Occupied }, ?_, rfl⟩
  rw [hplace]
  show findCell ((footprintCoords bl pd.CellsX pd.CellsY).foldl
    (markCellState ECellState.Occupied) g) c = _
  rw [findCell_foldl_mark, if_pos hc, hcell]
  rfl

/-- C2 witness: placing the loadable 1 x 1 tile on the one-free-cell grid
succeeds and occupies the footprint. -/
theorem C2_place_success_amended_witness :
    (TryPlaceMultiCellMesh grid1Free ⟨0, 0⟩ sampleTile1).1 = true ∧
      ∀ c ∈ footprintCoords ⟨0, 0⟩ sampleTile1.CellsX sampleTile1.CellsY,
        ∃ cell, findCell (TryPlaceMultiCellMesh grid1Free ⟨0, 0⟩
          sampleTile1).2 c = some cell ∧
          cell.CellState = ECellState.Occupied :=
  C2_place_success_amended grid1Free ⟨0, 0⟩ sampleTile1 (by decide) (by decide)
    (by decide) (fun c hc => by
      have hc2 : c = ⟨0, 0⟩ := by
        have he : footprintCoords ⟨0, 0⟩ sampleTile1.CellsX sampleTile1.CellsY
            = [⟨0, 0⟩] := by decide
        rw [he] at hc
        exact List.mem_singleton.mp hc
      subst hc2
      exact ⟨newUnoccupiedCell ⟨0, 0⟩, by decide, rfl⟩)

end ClaimC2

section ClaimC10

/-- C10: ReserveCellsForFootprint succeeds exactly when CheckFootprintOverlap
on the same footprint returns false; on success every footprint cell is marked
Reserved, and when CheckFootprintOverlap returns true the reservation returns
false with the grid unchanged. -/
theorem C10_reserve_iff_no_overlap (g : Grid) (bl : GridCoord) (fx fy : Int) :
    ((ReserveCellsForFootprint g bl fx fy).1 = true ↔
        CheckFootprintOverlap g bl fx fy = false) ∧
      (CheckFootprintOverlap g bl fx fy = false →
        ∀ c ∈ footprintCoords bl fx fy,
          ∃ cell, findCell (ReserveCellsForFootprint g bl fx fy).2 c
            = some cell ∧ cell.CellState = ECellState.Reserved) ∧
      (CheckFootprintOverlap g bl fx fy = true →
        ReserveCellsForFootprint g bl fx fy = (false, g)) := by
  by_cases hall : (footprintCoords bl fx fy).all (cellIsFree g) = true
  · have hov : CheckFootprintOverlap g bl fx fy = false := by
      simp [CheckFootprintOverlap, hall]
    have hres : ReserveCellsForFootprint g bl fx fy =
        (true, (footprintCoords bl fx fy).foldl
          (markCellState ECellState.Reserved) g) := by
      unfold ReserveCellsForFootprint
      rw [hall]
      rfl
    refine ⟨by rw [hres, hov]; simp, fun _ c hc => ?_,
      fun hcontra => absurd hcontra (by rw [hov]; exact Bool.false_ne_true)⟩
    obtain ⟨cell, hcell, _⟩ :=
      (cellIsFree_eq_true g c).mp (List.all_eq_true.mp hall c hc)
    refine ⟨{ cell with CellState := ECellState.Reserved }, ?_, rfl⟩
    rw [hres]
    show findCell ((footprintCoords bl fx fy).foldl
      (markCellState ECellState.Reserved) g) c = _
    rw [findCell_foldl_mark, if_pos hc, hcell]
    rfl
  · have hall2 : (footprintCoords bl fx fy).all (cellIsFree g) = false :=
      Bool.eq_false_iff.mpr hall
    have hov : CheckFootprintOverlap g bl fx fy = true := by
      simp [CheckFootprintOverlap, hall2]
    have hres := reserve_not_all_free g bl fx fy hall2
    refine ⟨by rw [hres, hov]; simp, fun hcontra => ?_, fun _ => hres⟩
    exact absurd hov (by rw [hcontra]; exact Bool.false_ne_true)

/-- C10 witness: reserving the free origin cell succeeds and marks it
Reserved. -/
theorem C10_reserve_iff_no_overlap_witness :
    ∃ cell, findCell (ReserveCellsForFootprint grid1Free ⟨0, 0⟩ 1 1).2 ⟨0, 0⟩
      = some cell ∧ cell.CellState = ECellState.Reserved :=
  (C10_reserve_iff_no_overlap grid1Free ⟨0, 0⟩ 1 1).2.1 (by decide) ⟨0, 0⟩
    (by decide)

end ClaimC10

section ForcedLemmas

theorem applyOneForced_fst (acc : Bool × Grid) (p : GridCoord × FMeshPlacementData) :
    (applyOneForced acc p).1 = (acc.1 && !forcedRejected acc.2 p) := by
  obtain ⟨flag, g⟩ := acc
  obtain ⟨bl, pd⟩ := p
  simp only [applyOneForced, forcedRejected]
  by_cases hov : CheckFootprintOverlap g bl pd.CellsX pd.CellsY
  · simp [hov]
  · rcases hres : ReserveCellsForFootprint g bl pd.CellsX pd.CellsY with ⟨ok, g1⟩
    simp only [hov, if_false, hres, Bool.not_false, Bool.and_true]
    cases ok <;> simp

theorem applyOneForced_snd (acc : Bool × Grid) (p : GridCoord × FMeshPlacementData) :
    (applyOneForced acc p).2 = (applyOneForced (true, acc.2) p).2 := by
  obtain ⟨flag, g⟩ := acc
  obtain ⟨bl, pd⟩ := p
  simp only [applyOneForced]
  by_cases hov : CheckFootprintOverlap g bl pd.CellsX pd.CellsY
  · simp [hov]
  · rcases hres : ReserveCellsForFootprint g bl pd.CellsX pd.CellsY with ⟨ok, g1⟩
    simp only [hov, if_false, hres]
    cases ok <;> simp

theorem applyOneForced_of_rejected (acc : Bool × Grid)
    (p : GridCoord × FMeshPlacementData) (h : forcedRejected acc.2 p = true) :
    applyOneForced acc p = (false, acc.2) := by
  obtain ⟨flag, g⟩ := acc
  obtain ⟨bl, pd⟩ := p
  simp only [forcedRejected] at h
  simp [applyOneForced, h]

theorem applyOneForced_preserves (acc : Bool × Grid)
    (p : GridCoord × FMeshPlacementData) (c : GridCoord) (cell : FGridCell)
    (hc : findCell acc.2 c = some cell)
    (hst : cell.CellState ≠ ECellState.Unoccupied) :
    findCell (applyOneForced acc p).2 c = some cell := by
  obtain ⟨flag, g⟩ := acc
  obtain ⟨bl, pd⟩ := p
  simp only [] at hc
  simp only [applyOneForced]
  by_cases hov : CheckFootprintOverlap g bl pd.CellsX pd.CellsY
  · simp [hov, hc]
  · rcases hres : ReserveCellsForFootprint g bl pd.CellsX pd.CellsY with ⟨ok, g1⟩
    have hg1 : findCell g1 c = some cell := by
      have hp := reserve_preserves_nonfree g bl pd.CellsX pd.CellsY c cell hc hst
      rw [hres] at hp
      exact hp
    simp only [hov, if_false, hres]
    cases ok
    · simpa using hg1
    · simpa using tryPlace_preserves_nonfree g1 bl pd c cell hg1 hst

theorem foldForced_fst (ps : List (GridCoord × FMeshPlacementData)) :
    ∀ acc : Bool × Grid,
      (ps.foldl applyOneForced acc).1 = (acc.1 && noRejects acc.2 ps) := by
  induction ps with
  | nil => intro acc; simp [noRejects]
  | cons p t ih =>
    intro acc
    rw [List.foldl_cons, ih, applyOneForced_fst, noRejects]
    rw [show applyOneForced (true, acc.2) p
      = ((applyOneForced (true, acc.2) p).1, (applyOneForced (true, acc.2) p).2)
      from rfl]
    rw [applyOneForced_snd]
    simp [Bool.and_assoc]

theorem foldForced_snd (ps : List (GridCoord × FMeshPlacementData)) :
    ∀ acc : Bool × Grid,
      (ps.foldl applyOneForced acc).2
        = (ps.foldl applyOneForced (true, acc.2)).2 := by
  induction ps with
  | nil => intro acc; rfl
  | cons p t ih =>
    intro acc
    rw [List.foldl_cons, List.foldl_cons, ih, ih (applyOneForced (true, acc.2) p)]
    rw [applyOneForced_snd acc p]

theorem foldForced_preserves (ps : List (GridCoord × FMeshPlacementData)) :
    ∀ (acc : Bool × Grid) (c : GridCoord) (cell : FGridCell),
      findCell acc.2 c = some cell →
      cell.CellState ≠ ECellState.Unoccupied →
      findCell (ps.foldl applyOneForced acc).2 c = some cell := by
  induction ps with
  | nil => intro acc c cell hc _; exact hc
  | cons p t ih =>
    intro acc c cell hc hst
    rw [List.foldl_cons]
    exact ih (applyOneForced acc p) c cell
      (applyOneForced_preserves acc p c cell hc hst) hst

end ForcedLemmas

section ClaimC3

/-- C3: forced placements run before the procedural floor fill and generation
continues whatever their boolean result (first conjunct: the rest of
GenerateRoom consumes only the grid component of ApplyForcedPlacements and
always proceeds to the floor and wall passes); a forced placement is rejected,
changing no cell, exactly when its overlap check fires (second conjunct:
processing one placement returns the untouched grid and clears the flag
exactly on overlap); the function returns false exactly when at least one
placement was rejected along the way (third conjunct); and cells taken by an
earlier accepted placement are never altered by later ones, so the first of
two overlapping placements wins (fourth conjunct: every non-Unoccupied cell
survives the whole pass unchanged, and by the second conjunct any later
placement touching it is rejected). -/
theorem C3_forced_placement_policy :
    (∀ (envRand generationSeed : Int) (inp : RoomGenInputs),
        inp.bUseShapeOverride = true →
        GenerateRoom false envRand generationSeed inp =
          some (GenerateWalls
              (GenerateFloor
                (ApplyForcedPlacements (InitializeGrid inp.shapeOverride)
                  inp.forcedFloor inp.forcedWall inp.forcedCeil).2
                inp.floorTiles (FRandomStream.ofSeed generationSeed)).1,
            (GenerateFloor
              (ApplyForcedPlacements (InitializeGrid inp.shapeOverride)
                inp.forcedFloor inp.forcedWall inp.forcedCeil).2
              inp.floorTiles (FRandomStream.ofSeed generationSeed)).2)) ∧
    (∀ (acc : Bool × Grid) (p : GridCoord × FMeshPlacementData),
        ((applyOneForced acc p).1 = (acc.1 && !forcedRejected acc.2 p)) ∧
        (forcedRejected acc.2 p = true → applyOneForced acc p = (false, acc.2))) ∧
    (∀ (g : Grid) (fl wl cl : List (GridCoord × FMeshPlacementData)),
        ((ApplyForcedPlacements g fl wl cl).1 = true ↔
          noRejects g (fl ++ wl ++ cl) = true)) ∧
    (∀ (g : Grid) (fl wl cl : List (GridCoord × FMeshPlacementData))
        (c : GridCoord) (cell : FGridCell),
        findCell g c = some cell →
        cell.CellState ≠ ECellState.Unoccupied →
        findCell (ApplyForcedPlacements g fl wl cl).2 c = some cell) := by
  refine ⟨?_, ?_, ?_, ?_⟩
  · intro envRand generationSeed inp h
    simp only [GenerateRoom, h, if_true, Bool.false_eq_true, if_false]
  · intro acc p
    exact ⟨applyOneForced_fst acc p, applyOneForced_of_rejected acc p⟩
  · intro g fl wl cl
    unfold ApplyForcedPlacements
    rw [foldForced_fst]
    simp
  · intro g fl wl cl c cell hc hst
    exact foldForced_preserves (fl ++ wl ++ cl) (true, g) c cell hc hst

/-- C3 witness: an already occupied cell survives a forced-placement pass that
targets it, and that pass reports failure. -/
theorem C3_forced_placement_policy_witness :
    findCell (ApplyForcedPlacements grid1Occ [(⟨0, 0⟩, sampleTile1)] [] []).2
        ⟨0, 0⟩ = some (cellOccAt ⟨0, 0⟩) :=
  C3_forced_placement_policy.2.2.2 grid1Occ [(⟨0, 0⟩, sampleTile1)] [] []
    ⟨0, 0⟩ (cellOccAt ⟨0, 0⟩) (by decide) (by decide)

end ClaimC3

section WeightedPickLemmas

theorem weightedPickIdx_spec_aux (ts : List FMeshPlacementData) :
    ∀ (r acc : ℚ), acc < r → r < acc + totalWeight ts →
      ∃ i t, weightedPickIdx r acc ts = some (i, t) ∧
        ts.get? i = some t ∧
        r ≤ acc + totalWeight (ts.take (i + 1)) ∧
        ∀ j < i, acc + totalWeight (ts.take (j + 1)) < r := by
  induction ts with
  | nil =>
    intro r acc hlo hhi
    exact absurd (lt_trans hlo hhi) (by simp [totalWeight])
  | cons t rest ih =>
    intro r acc hlo hhi
    by_cases hpick : r ≤ acc + t.SelectionWeight
    · refine ⟨0, t, ?_, rfl, ?_, by omega⟩
      · simp [weightedPickIdx, hpick]
      · simpa [totalWeight] using hpick
    · have hlt : acc + t.SelectionWeight < r := not_le.mp hpick
      have hhi2 : r < (acc + t.SelectionWeight) + totalWeight rest := by
        have : totalWeight (t :: rest) = t.SelectionWeight + totalWeight rest := by
          simp [totalWeight]
        rw [this] at hhi
        linarith
      obtain ⟨i, u, hpk, hget, hub, hlb⟩ := ih r (acc + t.SelectionWeight) hlt hhi2
      refine ⟨i + 1, u, ?_, hget, ?_, ?_⟩
      · simp [weightedPickIdx, hpick, hpk]
      · have : totalWeight ((t :: rest).take (i + 2))
            = t.SelectionWeight + totalWeight (rest.take (i + 1)) := by
          simp [totalWeight]
        rw [this]
        linarith
      · intro j hj
        cases j with
        | zero =>
          simpa [totalWeight] using hlt
        | succ j2 =>
          have hj2 : j2 < i := by omega
          have : totalWeight ((t :: rest).take (j2 + 2))
              = t.SelectionWeight + totalWeight (rest.take (j2 + 1)) := by
            simp [totalWeight]
          rw [this]
          have := hlb j2 hj2
          linarith

end WeightedPickLemmas

section ClaimC7

/-- C7: for every candidate list with total selection weight T and every
sampled value r with 0 <= r < T, the cumulative-weight loop selects exactly
one candidate, namely the first index i at which r is at most the sum of the
first i + 1 weights; every earlier running total is strictly below r. -/
theorem C7_weighted_selection_picks_first_covering (ts : List FMeshPlacementData)
    (r : ℚ) (h0 : 0 ≤ r) (hr : r < totalWeight ts) :
    ∃ i t, weightedPickIdx r 0 ts = some (i, t) ∧
      weightedPick r ts = some t ∧
      ts.get? i = some t ∧
      r ≤ totalWeight (ts.take (i + 1)) ∧
      ∀ j < i, totalWeight (ts.take (j + 1)) < r := by
  cases ts with
  | nil => exact absurd hr (by simp [totalWeight]; linarith)
  | cons t rest =>
    by_cases hpick : r ≤ 0 + t.SelectionWeight
    · have hpick2 : r ≤ t.SelectionWeight := by linarith
      refine ⟨0, t, ?_, ?_, rfl, ?_, by omega⟩
      · simp [weightedPickIdx, hpick2]
      · simp [weightedPick, weightedPickIdx, hpick2]
      · simpa [totalWeight] using hpick2
    · have hlt : (0 : ℚ) + t.SelectionWeight < r := not_le.mp hpick
      have hpick2 : ¬r ≤ t.SelectionWeight := fun h => hpick (by linarith)
      have hhi2 : r < (0 + t.SelectionWeight) + totalWeight rest := by
        have : totalWeight (t :: rest) = t.SelectionWeight + totalWeight rest := by
          simp [totalWeight]
        rw [this] at hr
        linarith
      obtain ⟨i, u, hpk, hget, hub, hlb⟩ :=
        weightedPickIdx_spec_aux rest r (0 + t.SelectionWeight) hlt hhi2
      rw [zero_add] at hpk
      refine ⟨i + 1, u, ?_, ?_, hget, ?_, ?_⟩
      · simp [weightedPickIdx, hpick2, hpk]
      · simp [weightedPick, weightedPickIdx, hpick2, hpk]
      · have : totalWeight ((t :: rest).take (i + 2))
            = t.SelectionWeight + totalWeight (rest.take (i + 1)) := by
          simp [totalWeight]
        rw [this]
        linarith
      · intro j hj
        cases j with
        | zero =>
          simpa [totalWeight] using hlt
        | succ j2 =>
          have hj2 : j2 < i := by omega
          have : totalWeight ((t :: rest).take (j2 + 2))
              = t.SelectionWeight + totalWeight (rest.take (j2 + 1)) := by
            simp [totalWeight]
          rw [this]
          have := hlb j2 hj2
          linarith

/-- C7 witness: sampling r = 3/2 over two unit-weight candidates selects
exactly the second one. -/
theorem C7_weighted_selection_witness :
    ∃ i t, weightedPickIdx (3 / 2) 0 [sampleTile1, sampleTileNoMesh]
        = some (i, t) ∧
      weightedPick (3 / 2) [sampleTile1, sampleTileNoMesh] = some t ∧
      [sampleTile1, sampleTileNoMesh].get? i = some t ∧
      (3 / 2 : ℚ) ≤ totalWeight ([sampleTile1, sampleTileNoMesh].take (i + 1)) ∧
      ∀ j < i, totalWeight ([sampleTile1, sampleTileNoMesh].take (j + 1))
        < 3 / 2 :=
  C7_weighted_selection_picks_first_covering [sampleTile1, sampleTileNoMesh]
    (3 / 2) (by norm_num)
    (by norm_num [totalWeight, sampleTile1, sampleTileNoMesh])

end ClaimC7

section ClaimC8

/-- C8: with bUseRandomSeed false, two runs with the same GenerationSeed and
the same RoomData inputs are identical whatever ambient engine random value
would have been drawn: the stream is seeded from GenerationSeed alone, so the
resulting grids (occupancy and wall flags) and final stream states coincide,
and any subsequent rotation draw of SpawnMeshAtPosition from the resulting
stream makes the same choice in both runs. -/
theorem C8_same_seed_same_room (env1 env2 generationSeed : Int)
    (inp : RoomGenInputs) :
    GenerateRoom false env1 generationSeed inp
        = GenerateRoom false env2 generationSeed inp ∧
      ∀ (pd : FMeshPlacementData) (g1 g2 : Grid) (rs1 rs2 : FRandomStream),
        GenerateRoom false env1 generationSeed inp = some (g1, rs1) →
        GenerateRoom false env2 generationSeed inp = some (g2, rs2) →
        g1 = g2 ∧ SpawnMeshRotationSteps pd rs1 = SpawnMeshRotationSteps pd rs2 := by
  have h : GenerateRoom false env1 generationSeed inp
      = GenerateRoom false env2 generationSeed inp := rfl
  refine ⟨h, ?_⟩
  intro pd g1 g2 rs1 rs2 h1 h2
  rw [h, h2] at h1
  injection h1 with h3
  injection h3 with h4 h5
  exact ⟨h4.symm, by rw [h5]⟩

/-- C8 witness: two runs with distinct ambient random values but the same seed
produce the same 1 x 1 grid and the same rotation draw. -/
theorem C8_same_seed_same_room_witness :
    rectCells 1 1 = rectCells 1 1 ∧
      SpawnMeshRotationSteps sampleTile1 (FRandomStream.ofSeed 0)
        = SpawnMeshRotationSteps sampleTile1 (FRandomStream.ofSeed 0) :=
  (C8_same_seed_same_room 3 9 0 sampleInputs).2 sampleTile1
    (rectCells 1 1) (rectCells 1 1)
    (FRandomStream.ofSeed 0) (FRandomStream.ofSeed 0) (by decide) (by decide)

end ClaimC8

section GridInitLemmas

theorem findCell_of_entry_shape (g : Grid)
    (hshape : ∀ p ∈ g, p.2 = newUnoccupiedCell p.1) (c : GridCoord) :
    findCell g c =
      if c ∈ g.map Prod.fst then some (newUnoccupiedCell c) else none := by
  induction g with
  | nil => simp [findCell]
  | cons p rest ih =>
    obtain ⟨k, cell⟩ := p
    have hcell : cell = newUnoccupiedCell k :=
      hshape (k, cell) (List.mem_cons_self (k, cell) rest)
    have ihr := ih (fun q hq => hshape q (List.mem_cons_of_mem _ hq))
    by_cases hk : k = c
    · subst hk
      simp [findCell, hcell]
    · have hck : ¬c = k := fun hkk => hk hkk.symm
      simp only [findCell, if_neg hk, ihr, List.map_cons, List.mem_cons, hck,
        false_or]

theorem rectCells_entry_shape (w h : Int) :
    ∀ p ∈ rectCells w h, p.2 = newUnoccupiedCell p.1 := by
  intro p hp
  simp only [rectCells, List.mem_flatMap, List.mem_map, List.mem_range] at hp
  obtain ⟨y, _, x, _, rfl⟩ := hp
  rfl

theorem mem_keys_rectCells (w h : Int) (cc : GridCoord) :
    cc ∈ (rectCells w h).map Prod.fst ↔
      (0 ≤ cc.x ∧ cc.x < max w 0 ∧ 0 ≤ cc.y ∧ cc.y < max h 0) := by
  constructor
  · intro hmem
    obtain ⟨p, hp, rfl⟩ := List.mem_map.mp hmem
    simp only [rectCells, List.mem_flatMap, List.mem_map, List.mem_range] at hp
    obtain ⟨y, hy, x, hx, rfl⟩ := hp
    simp only []
    omega
  · rintro ⟨h1, h2, h3, h4⟩
    obtain ⟨cx, cy⟩ := cc
    dsimp only at h1 h2 h3 h4
    refine List.mem_map.mpr ⟨(⟨cx, cy⟩, newUnoccupiedCell ⟨cx, cy⟩), ?_, rfl⟩
    simp only [rectCells, List.mem_flatMap, List.mem_map, List.mem_range]
    refine ⟨cy.toNat, by omega, cx.toNat, by omega, ?_⟩
    have hx2 : ((cx.toNat : Int)) = cx := Int.toNat_of_nonneg h1
    have hy2 : ((cy.toNat : Int)) = cy := Int.toNat_of_nonneg h3
    simp [hx2, hy2]

theorem findCell_rectCells (w h : Int) (cc : GridCoord) :
    findCell (rectCells w h) cc =
      if 0 ≤ cc.x ∧ cc.x < max w 0 ∧ 0 ≤ cc.y ∧ cc.y < max h 0 then
        some (newUnoccupiedCell cc)
      else none := by
  rw [findCell_of_entry_shape (rectCells w h) (rectCells_entry_shape w h) cc]
  by_cases hmem : cc ∈ (rectCells w h).map Prod.fst
  · rw [if_pos hmem, if_pos ((mem_keys_rectCells w h cc).mp hmem)]
  · rw [if_neg hmem, if_neg (fun hc => hmem ((mem_keys_rectCells w h cc).mpr hc))]

theorem rectCells_length (w h : Int) :
    (rectCells w h).length = h.toNat * w.toNat := by
  rw [rectCells, List.length_flatMap]
  have hmap : List.map (List.length ∘ fun (y : Nat) =>
      (List.range w.toNat).map (fun (x : Nat) =>
        let c : GridCoord := ⟨(x : Int), (y : Int)⟩
        (c, newUnoccupiedCell c))) (List.range h.toNat)
      = List.replicate h.toNat w.toNat := by
    rw [List.eq_replicate_iff]
    refine ⟨by simp, ?_⟩
    intro b hb
    obtain ⟨y, _, rfl⟩ := List.mem_map.mp hb
    simp
  rw [hmap, List.sum_replicate, smul_eq_mul]

theorem customCells_entry_shape (sd : FRoomShapeDefinition) :
    ∀ p ∈ customCells sd, p.2 = newUnoccupiedCell p.1 := by
  intro p hp
  simp only [customCells] at hp
  by_cases hlen : ((sd.CustomCellLayout.length : Int) =
      sd.CustomLayoutWidth * sd.CustomLayoutHeight)
  · rw [if_pos hlen] at hp
    simp only [List.mem_flatMap, List.mem_filterMap, List.mem_range] at hp
    obtain ⟨y, _, x, _, hx⟩ := hp
    by_cases he : sd.CustomCellLayout.getD
        (y * sd.CustomLayoutWidth.toNat + x) 0 = 1
    · rw [if_pos he] at hx
      cases hx
      rfl
    · rw [if_neg he] at hx
      exact absurd hx (by simp)
  · rw [if_neg hlen] at hp
    exact absurd hp (by simp)

theorem mem_keys_customCells (sd : FRoomShapeDefinition)
    (hlen : (sd.CustomCellLayout.length : Int) =
      sd.CustomLayoutWidth * sd.CustomLayoutHeight) (cc : GridCoord) :
    cc ∈ (customCells sd).map Prod.fst ↔
      (0 ≤ cc.x ∧ cc.x < max sd.CustomLayoutWidth 0 ∧
       0 ≤ cc.y ∧ cc.y < max sd.CustomLayoutHeight 0 ∧
       sd.CustomCellLayout.getD
         (cc.y.toNat * sd.CustomLayoutWidth.toNat + cc.x.toNat) 0 = 1) := by
  unfold customCells
  rw [if_pos hlen]
  constructor
  · intro hmem
    obtain ⟨p, hp, rfl⟩ := List.mem_map.mp hmem
    simp only [List.mem_flatMap, List.mem_filterMap, List.mem_range] at hp
    obtain ⟨y, hy, x, hx, hsome⟩ := hp
    by_cases he : sd.CustomCellLayout.getD
        (y * sd.CustomLayoutWidth.toNat + x) 0 = 1
    · rw [if_pos he] at hsome
      cases hsome
      simp only [Int.toNat_natCast]
      refine ⟨by omega, by omega, by omega, by omega, he⟩
    · rw [if_neg he] at hsome
      exact absurd hsome (by simp)
  · rintro ⟨h1, h2, h3, h4, h5⟩
    refine List.mem_map.mpr
      ⟨(⟨(cc.x.toNat : Int), (cc.y.toNat : Int)⟩,
        newUnoccupiedCell ⟨(cc.x.toNat : Int), (cc.y.toNat : Int)⟩), ?_, ?_⟩
    · simp only [List.mem_flatMap, List.mem_filterMap, List.mem_range]
      exact ⟨cc.y.toNat, by omega, cc.x.toNat, by omega, by rw [if_pos h5]⟩
    · obtain ⟨cx, cy⟩ := cc
      dsimp only at h1 h3 ⊢
      rw [Int.toNat_of_nonneg h1, Int.toNat_of_nonneg h3]

theorem findCell_customCells (sd : FRoomShapeDefinition)
    (hlen : (sd.CustomCellLayout.length : Int) =
      sd.CustomLayoutWidth * sd.CustomLayoutHeight) (cc : GridCoord) :
    findCell (customCells sd) cc =
      if (0 ≤ cc.x ∧ cc.x < max sd.CustomLayoutWidth 0 ∧
          0 ≤ cc.y ∧ cc.y < max sd.CustomLayoutHeight 0 ∧
          sd.CustomCellLayout.getD
            (cc.y.toNat * sd.CustomLayoutWidth.toNat + cc.x.toNat) 0 = 1) then
        some (newUnoccupiedCell cc)
      else none := by
  rw [findCell_of_entry_shape (customCells sd) (customCells_entry_shape sd) cc]
  by_cases hmem : cc ∈ (customCells sd).map Prod.fst
  · rw [if_pos hmem, if_pos ((mem_keys_customCells sd hlen cc).mp hmem)]
  · rw [if_neg hmem,
      if_neg (fun hc => hmem ((mem_keys_customCells sd hlen cc).mpr hc))]

end GridInitLemmas

section ClaimC9

/-- C9: for a Custom shape whose layout has exactly width times height
entries, grid initialization creates a cell at a coordinate exactly when the
coordinate lies inside the layout rectangle and the layout entry at index
y * width + x equals 1, and every created cell is Unoccupied (and stores its
own coordinate). -/
theorem C9_custom_layout (sd : FRoomShapeDefinition)
    (hty : sd.ShapeType = ERoomShape.Custom)
    (hlen : (sd.CustomCellLayout.length : Int) =
      sd.CustomLayoutWidth * sd.CustomLayoutHeight) (cc : GridCoord) :
    (IsValidGridPosition (InitializeGrid sd) cc = true ↔
      (0 ≤ cc.x ∧ cc.x < sd.CustomLayoutWidth ∧
       0 ≤ cc.y ∧ cc.y < sd.CustomLayoutHeight ∧
       sd.CustomCellLayout.getD
         (cc.y.toNat * sd.CustomLayoutWidth.toNat + cc.x.toNat) 0 = 1)) ∧
    (∀ cell, findCell (InitializeGrid sd) cc = some cell →
      cell.GridCoordinates = cc ∧ cell.CellState = ECellState.Unoccupied) := by
  have hg : InitializeGrid sd = customCells sd := by
    unfold InitializeGrid
    rw [hty]
  rw [hg]
  have hfc := findCell_customCells sd hlen cc
  constructor
  · rw [IsValidGridPosition, hfc]
    by_cases hc : (0 ≤ cc.x ∧ cc.x < max sd.CustomLayoutWidth 0 ∧
        0 ≤ cc.y ∧ cc.y < max sd.CustomLayoutHeight 0 ∧
        sd.CustomCellLayout.getD
          (cc.y.toNat * sd.CustomLayoutWidth.toNat + cc.x.toNat) 0 = 1)
    · rw [if_pos hc]
      constructor
      · intro _
        obtain ⟨a, b, c, d, e⟩ := hc
        exact ⟨a, by omega, c, by omega, e⟩
      · intro _
        rfl
    · rw [if_neg hc]
      constructor
      · intro habs
        exact absurd habs (by simp)
      · intro ⟨a, b, c, d, e⟩
        exact absurd ⟨a, by omega, c, by omega, e⟩ hc
  · intro cell hcell
    rw [hfc] at hcell
    by_cases hc : (0 ≤ cc.x ∧ cc.x < max sd.CustomLayoutWidth 0 ∧
        0 ≤ cc.y ∧ cc.y < max sd.CustomLayoutHeight 0 ∧
        sd.CustomCellLayout.getD
          (cc.y.toNat * sd.CustomLayoutWidth.toNat + cc.x.toNat) 0 = 1)
    · rw [if_pos hc] at hcell
      cases hcell
      exact ⟨rfl, rfl⟩
    · rw [if_neg hc] at hcell
      exact absurd hcell (by simp)

/-- C9 witness: in the sample layout 1,0,0,1 of width 2, the diagonal cell
(1,1) exists (its entry is 1) and the off-diagonal cell (1,0) does not. -/
theorem C9_custom_layout_witness :
    IsValidGridPosition (InitializeGrid sdCustomSample) ⟨1, 1⟩ = true ∧
      IsValidGridPosition (InitializeGrid sdCustomSample) ⟨1, 0⟩ ≠ true :=
  ⟨(C9_custom_layout sdCustomSample rfl (by decide) ⟨1, 1⟩).1.mpr (by decide),
    fun h =>
      by cases (C9_custom_layout sdCustomSample rfl (by decide) ⟨1, 0⟩).1.mp h
          with | intro a rest => exact absurd rest.2.2.2 (by decide)⟩

end ClaimC9

section WallLemmas

theorem stateEq_refl (g : Grid) : stateEq g g := fun _ => rfl

theorem neighborNeedsWall_congr (g1 g2 : Grid) (h : stateEq g1 g2)
    (c : GridCoord) : neighborNeedsWall g1 c = neighborNeedsWall g2 c := by
  have hc := h c
  cases h1 : findCell g1 c with
  | none =>
    cases h2 : findCell g2 c with
    | none => simp [neighborNeedsWall, h1, h2]
    | some cell2 => rw [h1, h2] at hc; exact absurd hc (by simp)
  | some cell1 =>
    cases h2 : findCell g2 c with
    | none => rw [h1, h2] at hc; exact absurd hc (by simp)
    | some cell2 =>
      rw [h1, h2] at hc
      simp only [Option.map] at hc
      injection hc with hs
      simp [neighborNeedsWall, h1, h2, hs]

theorem setWallFlags_congr (g1 g2 : Grid) (h : stateEq g1 g2)
    (cell : FGridCell) : setWallFlags g1 cell = setWallFlags g2 cell := by
  unfold setWallFlags
  rw [neighborNeedsWall_congr g1 g2 h, neighborNeedsWall_congr g1 g2 h,
    neighborNeedsWall_congr g1 g2 h, neighborNeedsWall_congr g1 g2 h]

theorem setWallFlags_state (g : Grid) (cell : FGridCell) :
    (setWallFlags g cell).CellState = cell.CellState := rfl

theorem setWallFlags_coords (g : Grid) (cell : FGridCell) :
    (setWallFlags g cell).GridCoordinates = cell.GridCoordinates := rfl

theorem setWallFlags_idem (g : Grid) (cell : FGridCell) :
    setWallFlags g (setWallFlags g cell) = setWallFlags g cell := rfl

theorem wallStep_of_none (acc : Grid) (k : GridCoord)
    (hk : findCell acc k = none) : wallStep acc k = acc := by
  unfold wallStep
  rw [hk]

theorem wallStep_of_not_occupied (acc : Grid) (k : GridCoord)
    (kcell : FGridCell) (hk : findCell acc k = some kcell)
    (hocc : kcell.CellState ≠ ECellState.Occupied) : wallStep acc k = acc := by
  unfold wallStep
  rw [hk]
  dsimp only
  rw [if_neg hocc]

theorem wallStep_of_occupied (acc : Grid) (k : GridCoord)
    (kcell : FGridCell) (hk : findCell acc k = some kcell)
    (hocc : kcell.CellState = ECellState.Occupied) :
    wallStep acc k = updateCell acc k (setWallFlags acc) := by
  unfold wallStep
  rw [hk]
  dsimp only
  rw [if_pos hocc]

theorem stateEq_wallStep (acc : Grid) (k : GridCoord) :
    stateEq (wallStep acc k) acc := by
  intro c
  cases hk : findCell acc k with
  | none => rw [wallStep_of_none acc k hk]
  | some kcell =>
    by_cases hocc : kcell.CellState = ECellState.Occupied
    · rw [wallStep_of_occupied acc k kcell hk hocc, findCell_updateCell]
      by_cases hkc : k = c
      · subst hkc
        rw [if_pos rfl, hk]
        rfl
      · rw [if_neg hkc]
    · rw [wallStep_of_not_occupied acc k kcell hk hocc]

theorem coordWF_wallStep (acc : Grid) (k : GridCoord) (h : coordWF acc) :
    coordWF (wallStep acc k) := by
  intro c cell hc
  cases hk : findCell acc k with
  | none =>
    rw [wallStep_of_none acc k hk] at hc
    exact h c cell hc
  | some kcell =>
    by_cases hocc : kcell.CellState = ECellState.Occupied
    · rw [wallStep_of_occupied acc k kcell hk hocc, findCell_updateCell] at hc
      by_cases hkc : k = c
      · subst hkc
        rw [if_pos rfl, hk] at hc
        simp only [Option.map] at hc
        injection hc with he
        rw [← he]
        exact h k kcell hk
      · rw [if_neg hkc] at hc
        exact h c cell hc
    · rw [wallStep_of_not_occupied acc k kcell hk hocc] at hc
      exact h c cell hc

theorem wallFold_findCell (ks : List GridCoord) :
    ∀ (acc g : Grid), stateEq acc g → coordWF acc →
      ∀ c, findCell (ks.foldl wallStep acc) c =
        match findCell acc c with
        | none => none
        | some cell =>
          if c ∈ ks ∧ cell.CellState = ECellState.Occupied then
            some (setWallFlags g cell)
          else some cell := by
  induction ks with
  | nil =>
    intro acc g hse hwf c
    rw [List.foldl_nil]
    cases hc : findCell acc c with
    | none => rfl
    | some cell => simp
  | cons k ks ih =>
    intro acc g hse hwf c
    rw [List.foldl_cons]
    have hse2 : stateEq (wallStep acc k) g :=
      fun c2 => (stateEq_wallStep acc k c2).trans (hse c2)
    have hwf2 : coordWF (wallStep acc k) := coordWF_wallStep acc k hwf
    rw [ih (wallStep acc k) g hse2 hwf2 c]
    cases hk : findCell acc k with
    | none =>
      rw [wallStep_of_none acc k hk]
      cases hc : findCell acc c with
      | none => rfl
      | some cell =>
        dsimp only
        by_cases hkc : c = k
        · exfalso; subst hkc; rw [hk] at hc; cases hc
        · by_cases hcond : c ∈ ks ∧ cell.CellState = ECellState.Occupied
          · rw [if_pos hcond, if_pos ⟨List.mem_cons_of_mem k hcond.1, hcond.2⟩]
          · rw [if_neg hcond, if_neg (fun hcc =>
              hcond ⟨(List.mem_cons.mp hcc.1).resolve_left hkc, hcc.2⟩)]
    | some kcell =>
      by_cases hocc : kcell.CellState = ECellState.Occupied
      · rw [wallStep_of_occupied acc k kcell hk hocc, findCell_updateCell]
        by_cases hkc : k = c
        · subst hkc
          rw [if_pos rfl, hk]
          simp only [Option.map]
          have hsacc : setWallFlags acc kcell = setWallFlags g kcell :=
            setWallFlags_congr acc g hse kcell
          have hsfocc : (setWallFlags acc kcell).CellState
              = ECellState.Occupied := hocc
          by_cases hkks : k ∈ ks
          · rw [if_pos ⟨hkks, hsfocc⟩, if_pos ⟨List.mem_cons_self k ks, hocc⟩,
              hsacc, setWallFlags_idem]
          · rw [if_neg (fun hcc => hkks hcc.1),
              if_pos ⟨List.mem_cons_self k ks, hocc⟩, hsacc]
        · rw [if_neg hkc]
          cases hc : findCell acc c with
          | none => rfl
          | some cell =>
            dsimp only
            have hck : c ≠ k := fun hcc => hkc hcc.symm
            by_cases hcond : c ∈ ks ∧ cell.CellState = ECellState.Occupied
            · rw [if_pos hcond, if_pos ⟨List.mem_cons_of_mem k hcond.1, hcond.2⟩]
            · rw [if_neg hcond, if_neg (fun hcc =>
                hcond ⟨(List.mem_cons.mp hcc.1).resolve_left hck, hcc.2⟩)]
      · rw [wallStep_of_not_occupied acc k kcell hk hocc]
        cases hc : findCell acc c with
        | none => rfl
        | some cell =>
          dsimp only
          by_cases hkc : c = k
          · subst hkc
            rw [hk] at hc
            injection hc with he
            subst he
            rw [if_neg (fun hcc => hocc hcc.2), if_neg (fun hcc => hocc hcc.2)]
          · by_cases hcond : c ∈ ks ∧ cell.CellState = ECellState.Occupied
            · rw [if_pos hcond, if_pos ⟨List.mem_cons_of_mem k hcond.1, hcond.2⟩]
            · rw [if_neg hcond, if_neg (fun hcc =>
                hcond ⟨(List.mem_cons.mp hcc.1).resolve_left hkc, hcc.2⟩)]

theorem findCell_GenerateWalls (g : Grid) (hwf : coordWF g) (c : GridCoord) :
    findCell (GenerateWalls g) c =
      match findCell g c with
      | none => none
      | some cell =>
        if cell.CellState = ECellState.Occupied then some (setWallFlags g cell)
        else some cell := by
  unfold GenerateWalls
  rw [wallFold_findCell (g.map Prod.fst) g g (stateEq_refl g) hwf c]
  cases hc : findCell g c with
  | none => rfl
  | some cell =>
    dsimp only
    have hmem : c ∈ g.map Prod.fst := findCell_some_mem_keys g c cell hc
    by_cases hocc : cell.CellState = ECellState.Occupied
    · rw [if_pos ⟨hmem, hocc⟩, if_pos hocc]
    · rw [if_neg (fun hcc => hocc hcc.2), if_neg hocc]

theorem neighborNeedsWall_eq_true (g : Grid) (n : GridCoord) :
    neighborNeedsWall g n = true ↔
      (findCell g n = none ∨
        ∃ nc, findCell g n = some nc ∧
          nc.CellState = ECellState.Unoccupied) := by
  cases hn : findCell g n <;> simp [neighborNeedsWall, hn]

theorem findCell_occupyAll (g : Grid) (c : GridCoord) :
    findCell (occupyAll g) c =
      (findCell g c).map
        (fun cell => { cell with CellState := ECellState.Occupied }) := by
  induction g with
  | nil => rfl
  | cons p rest ih =>
    obtain ⟨k, cell⟩ := p
    show findCell ((k, { cell with CellState := ECellState.Occupied })
      :: occupyAll rest) c = _
    by_cases hk : k = c
    · subst hk
      simp [findCell]
    · simp [findCell, hk, ih]

end WallLemmas

section ClaimC5

/-- C5 counterexample: the claim as stated is false.  In gridOccRes the origin
cell is Occupied and its east neighbor (1,0) is present but Reserved, so the
neighbor is not both present and Occupied and the claim requires the east wall
flag to be set; the code leaves it false, because it only sets a wall when the
neighbor is absent or Unoccupied. -/
theorem C5_wall_rule_counterexample :
    ¬(((findCell (GenerateWalls gridOccRes) ⟨0, 0⟩).map
          (fun cell => cell.bHasEastWall) = some true) ↔
      ¬((findCell (GenerateWalls gridOccRes) ⟨1, 0⟩).map
          (fun cell => cell.CellState) = some ECellState.Occupied)) := by
  decide

theorem coordWF_gridOccRes : coordWF gridOccRes := by
  intro c cell hc
  simp only [gridOccRes, findCell] at hc
  by_cases h1 : (⟨0, 0⟩ : GridCoord) = c
  · rw [if_pos h1] at hc
    injection hc with he
    rw [← he, ← h1]
    rfl
  · rw [if_neg h1] at hc
    by_cases h2 : (⟨1, 0⟩ : GridCoord) = c
    · rw [if_pos h2] at hc
      injection hc with he
      rw [← he, ← h2]
      rfl
    · rw [if_neg h2] at hc
      cases hc

/-- C5 amended: after wall derivation, every cell that was Occupied carries,
for each direction, a wall flag that is set if and only if the neighboring
coordinate in that direction is absent from the grid or present with state
Unoccupied; cells that were not Occupied are returned with their flags (and
everything else) unchanged.  The grid is assumed to store each cell under its
own coordinates, as every grid the generator builds does. -/
theorem C5_wall_flags_amended (g : Grid) (hwf : coordWF g) (cc : GridCoord)
    (cell : FGridCell) (hc : findCell g cc = some cell) :
    (cell.CellState = ECellState.Occupied →
      findCell (GenerateWalls g) cc = some (setWallFlags g cell) ∧
      ((setWallFlags g cell).bHasNorthWall = true ↔
        (findCell g ⟨cc.x, cc.y + 1⟩ = none ∨
          ∃ nc, findCell g ⟨cc.x, cc.y + 1⟩ = some nc ∧
            nc.CellState = ECellState.Unoccupied)) ∧
      ((setWallFlags g cell).bHasEastWall = true ↔
        (findCell g ⟨cc.x + 1, cc.y⟩ = none ∨
          ∃ nc, findCell g ⟨cc.x + 1, cc.y⟩ = some nc ∧
            nc.CellState = ECellState.Unoccupied)) ∧
      ((setWallFlags g cell).bHasSouthWall = true ↔
        (findCell g ⟨cc.x, cc.y - 1⟩ = none ∨
          ∃ nc, findCell g ⟨cc.x, cc.y - 1⟩ = some nc ∧
            nc.CellState = ECellState.Unoccupied)) ∧
      ((setWallFlags g cell).bHasWestWall = true ↔
        (findCell g ⟨cc.x - 1, cc.y⟩ = none ∨
          ∃ nc, findCell g ⟨cc.x - 1, cc.y⟩ = some nc ∧
            nc.CellState = ECellState.Unoccupied)) ∧
      (setWallFlags g cell).CellState = cell.CellState ∧
      (setWallFlags g cell).GridCoordinates = cell.GridCoordinates) ∧
    (cell.CellState ≠ ECellState.Occupied →
      findCell (GenerateWalls g) cc = some cell) := by
  have hcd : cell.GridCoordinates = cc := hwf cc cell hc
  constructor
  · intro hocc
    refine ⟨?_, ?_, ?_, ?_, ?_, rfl, rfl⟩
    · rw [findCell_GenerateWalls g hwf cc, hc]
      dsimp only
      rw [if_pos hocc]
    · show neighborNeedsWall g
        ⟨cell.GridCoordinates.x, cell.GridCoordinates.y + 1⟩ = true ↔ _
      rw [hcd]
      exact neighborNeedsWall_eq_true g _
    · show neighborNeedsWall g
        ⟨cell.GridCoordinates.x + 1, cell.GridCoordinates.y⟩ = true ↔ _
      rw [hcd]
      exact neighborNeedsWall_eq_true g _
    · show neighborNeedsWall g
        ⟨cell.GridCoordinates.x, cell.GridCoordinates.y - 1⟩ = true ↔ _
      rw [hcd]
      exact neighborNeedsWall_eq_true g _
    · show neighborNeedsWall g
        ⟨cell.GridCoordinates.x - 1, cell.GridCoordinates.y⟩ = true ↔ _
      rw [hcd]
      exact neighborNeedsWall_eq_true g _
  · intro hocc
    rw [findCell_GenerateWalls g hwf cc, hc]
    dsimp only
    rw [if_neg hocc]

/-- C5 witness: the Occupied origin cell of gridOccRes gets exactly the flags
computed from its neighbors. -/
theorem C5_wall_flags_amended_witness :
    findCell (GenerateWalls gridOccRes) ⟨0, 0⟩
      = some (setWallFlags gridOccRes (cellOccAt ⟨0, 0⟩)) :=
  ((C5_wall_flags_amended gridOccRes coordWF_gridOccRes ⟨0, 0⟩
    (cellOccAt ⟨0, 0⟩) (by decide)).1 (by decide)).1

end ClaimC5

section ClaimC4

/-- C4: for a rectangle shape with extents W, H at least 1, the generated grid
has exactly W * H cells, the present coordinates are exactly the integer
points of the W by H rectangle at the origin, every created cell stores its
coordinate and starts Unoccupied, and after a complete fill (every cell
Occupied) the wall derivation sets exactly the boundary flags: west on x = 0,
east on x = W - 1, south on y = 0, north on y = H - 1. -/
theorem C4_rectangle_grid (W H : Int) (hW : 1 ≤ W) (hH : 1 ≤ H) :
    ((InitializeGrid (rectShape W H)).length : Int) = W * H ∧
    (∀ cc : GridCoord,
      IsValidGridPosition (InitializeGrid (rectShape W H)) cc = true ↔
        (0 ≤ cc.x ∧ cc.x < W ∧ 0 ≤ cc.y ∧ cc.y < H)) ∧
    (∀ cc cell, findCell (InitializeGrid (rectShape W H)) cc = some cell →
      cell.GridCoordinates = cc ∧ cell.CellState = ECellState.Unoccupied) ∧
    (∀ cc cell,
      findCell (GenerateWalls (occupyAll (InitializeGrid (rectShape W H)))) cc
        = some cell →
      ((cell.bHasWestWall = true ↔ cc.x = 0) ∧
       (cell.bHasEastWall = true ↔ cc.x = W - 1) ∧
       (cell.bHasSouthWall = true ↔ cc.y = 0) ∧
       (cell.bHasNorthWall = true ↔ cc.y = H - 1))) := by
  have hg : InitializeGrid (rectShape W H) = rectCells W H := rfl
  have hmaxW : max W 0 = W := max_eq_left (by omega)
  have hmaxH : max H 0 = H := max_eq_left (by omega)
  have hfr : ∀ cc : GridCoord, findCell (rectCells W H) cc =
      if 0 ≤ cc.x ∧ cc.x < W ∧ 0 ≤ cc.y ∧ cc.y < H then
        some (newUnoccupiedCell cc) else none := by
    intro cc
    rw [findCell_rectCells, hmaxW, hmaxH]
  refine ⟨?_, ?_, ?_, ?_⟩
  · rw [hg, rectCells_length]
    have hw2 : ((W.toNat : Int)) = W := Int.toNat_of_nonneg (by omega)
    have hh2 : ((H.toNat : Int)) = H := Int.toNat_of_nonneg (by omega)
    push_cast
    rw [hw2, hh2, mul_comm]
  · intro cc
    rw [hg, IsValidGridPosition, hfr cc]
    by_cases hcond : 0 ≤ cc.x ∧ cc.x < W ∧ 0 ≤ cc.y ∧ cc.y < H
    · rw [if_pos hcond]
      simp [hcond]
    · rw [if_neg hcond]
      simp [hcond]
  · intro cc cell hc
    rw [hg, hfr cc] at hc
    by_cases hcond : 0 ≤ cc.x ∧ cc.x < W ∧ 0 ≤ cc.y ∧ cc.y < H
    · rw [if_pos hcond] at hc
      injection hc with he
      rw [← he]
      exact ⟨rfl, rfl⟩
    · rw [if_neg hcond] at hc
      cases hc
  · intro cc cell hc
    rw [hg] at hc
    set go := occupyAll (rectCells W H) with hgo
    have hfo : ∀ n : GridCoord, findCell go n =
        if 0 ≤ n.x ∧ n.x < W ∧ 0 ≤ n.y ∧ n.y < H then
          some { newUnoccupiedCell n with CellState := ECellState.Occupied }
        else none := by
      intro n
      rw [hgo, findCell_occupyAll, hfr n]
      by_cases hcond : 0 ≤ n.x ∧ n.x < W ∧ 0 ≤ n.y ∧ n.y < H
      · rw [if_pos hcond, if_pos hcond]
        rfl
      · rw [if_neg hcond, if_neg hcond]
        rfl
    have hwfo : coordWF go := by
      intro n ncell hn
      rw [hfo n] at hn
      by_cases hcond : 0 ≤ n.x ∧ n.x < W ∧ 0 ≤ n.y ∧ n.y < H
      · rw [if_pos hcond] at hn
        injection hn with he
        rw [← he]
        rfl
      · rw [if_neg hcond] at hn
        cases hn
    have hnnw : ∀ n : GridCoord, (neighborNeedsWall go n = true) ↔
        ¬(0 ≤ n.x ∧ n.x < W ∧ 0 ≤ n.y ∧ n.y < H) := by
      intro n
      by_cases hcond : 0 ≤ n.x ∧ n.x < W ∧ 0 ≤ n.y ∧ n.y < H
      · have hf : neighborNeedsWall go n = false := by
          unfold neighborNeedsWall
          rw [hfo n, if_pos hcond]
          rfl
        rw [hf]
        simp [hcond]
      · have ht : neighborNeedsWall go n = true := by
          unfold neighborNeedsWall
          rw [hfo n, if_neg hcond]
        rw [ht]
        simp [hcond]
    rw [findCell_GenerateWalls go hwfo cc, hfo cc] at hc
    by_cases hcond : 0 ≤ cc.x ∧ cc.x < W ∧ 0 ≤ cc.y ∧ cc.y < H
    · rw [if_pos hcond] at hc
      dsimp only at hc
      rw [if_pos rfl] at hc
      injection hc with he
      rw [← he]
      refine ⟨?_, ?_, ?_, ?_⟩
      · show neighborNeedsWall go ⟨cc.x - 1, cc.y⟩ = true ↔ cc.x = 0
        rw [hnnw ⟨cc.x - 1, cc.y⟩]
        dsimp only
        omega
      · show neighborNeedsWall go ⟨cc.x + 1, cc.y⟩ = true ↔ cc.x = W - 1
        rw [hnnw ⟨cc.x + 1, cc.y⟩]
        dsimp only
        omega
      · show neighborNeedsWall go ⟨cc.x, cc.y - 1⟩ = true ↔ cc.y = 0
        rw [hnnw ⟨cc.x, cc.y - 1⟩]
        dsimp only
        omega
      · show neighborNeedsWall go ⟨cc.x, cc.y + 1⟩ = true ↔ cc.y = H - 1
        rw [hnnw ⟨cc.x, cc.y + 1⟩]
        dsimp only
        omega
    · rw [if_neg hcond] at hc
      cases hc

/-- C4 witness: the 2 x 1 rectangle has exactly two cells. -/
theorem C4_rectangle_grid_witness :
    ((InitializeGrid (rectShape 2 1)).length : Int) = 2 * 1 :=
  (C4_rectangle_grid 2 1 (by decide) (by decide)).1

end ClaimC4

section FloorFillLemmas

theorem fillOneCell_preserves (g : Grid) (c : GridCoord)
    (singles : List FMeshPlacementData) (rs : FRandomStream)
    (cc : GridCoord) (cell : FGridCell)
    (hc : findCell g cc = some cell)
    (hst : cell.CellState ≠ ECellState.Unoccupied) :
    findCell (fillOneCell g c singles rs).1 cc = some cell := by
  unfold fillOneCell
  by_cases he : singles.isEmpty
  · rw [if_pos he]
    exact hc
  · rw [if_neg he]
    rcases hfr : rs.frandRange 0 (totalWeight singles) with ⟨r, rs1⟩
    dsimp only
    cases hwp : weightedPick r singles with
    | some t =>
      dsimp only
      exact tryPlace_preserves_nonfree g c t cc cell hc hst
    | none => exact hc

theorem foldSingle_preserves (singles : List FMeshPlacementData)
    (ks : List GridCoord) :
    ∀ (acc : Grid × FRandomStream) (cc : GridCoord) (cell : FGridCell),
      findCell acc.1 cc = some cell →
      cell.CellState ≠ ECellState.Unoccupied →
      findCell ((ks.foldl (singleCellStep singles) acc)).1 cc = some cell := by
  induction ks with
  | nil => intro acc cc cell hc _; exact hc
  | cons k t ih =>
    intro acc cc cell hc hst
    rw [List.foldl_cons]
    refine ih (singleCellStep singles acc k) cc cell ?_ hst
    unfold singleCellStep
    cases hk : findCell acc.1 k with
    | none => exact hc
    | some kcell =>
      dsimp only
      by_cases hu : kcell.CellState = ECellState.Unoccupied
      · rw [if_pos hu]
        exact fillOneCell_preserves acc.1 kcell.GridCoordinates singles acc.2
          cc cell hc hst
      · rw [if_neg hu]
        exact hc

end FloorFillLemmas

section ClaimC6

/-- C6: procedural floor fill runs the multi-cell pass first, over the tile
list sorted by footprint area in non-increasing order (a permutation of the
input tiles; the order of tiles with equal area is unspecified), then fills
with single-cell tiles drawn by cumulative-weight sampling (the definitional
equation of the first conjunct; the draw is FRandRange against the running
total, selected by weightedPick).  The multi-cell pass attempts no single-cell
tile: when only single-cell tiles are available it places nothing (third
conjunct).  The single-cell pass touches only cells that are still Unoccupied
when it reaches them: any non-Unoccupied cell, in particular every cell filled
by the multi-cell pass, is returned unchanged (fourth conjunct). -/
theorem C6_floor_fill_order :
    (∀ (g : Grid) (tiles : List FMeshPlacementData) (rs : FRandomStream),
        tiles ≠ [] →
        GenerateFloor g tiles rs =
          singleCellPass (multiCellPass g (sortTilesByAreaDesc tiles))
            tiles rs) ∧
    (∀ tiles : List FMeshPlacementData,
        (sortTilesByAreaDesc tiles).Pairwise
          (fun a b => tileArea b ≤ tileArea a) ∧
        (sortTilesByAreaDesc tiles).Perm tiles) ∧
    (∀ (g : Grid) (c : GridCoord) (ts : List FMeshPlacementData),
        (∀ t ∈ ts, isSingleCell t = true) → tryTilesAt g c ts = g) ∧
    (∀ (g : Grid) (tiles : List FMeshPlacementData) (rs : FRandomStream)
        (cc : GridCoord) (cell : FGridCell),
        findCell g cc = some cell →
        cell.CellState ≠ ECellState.Unoccupied →
        findCell (singleCellPass g tiles rs).1 cc = some cell) := by
  refine ⟨?_, ?_, ?_, ?_⟩
  · intro g tiles rs h
    cases tiles with
    | nil => exact absurd rfl h
    | cons t ts => rfl
  · intro tiles
    constructor
    · have htrans : ∀ a b c : FMeshPlacementData,
          (fun a b => decide (tileArea b ≤ tileArea a)) a b = true →
          (fun a b => decide (tileArea b ≤ tileArea a)) b c = true →
          (fun a b => decide (tileArea b ≤ tileArea a)) a c = true := by
        intro a b c hab hbc
        simp only [decide_eq_true_eq] at hab hbc ⊢
        exact le_trans hbc hab
      have htot : ∀ a b : FMeshPlacementData,
          ((fun a b => decide (tileArea b ≤ tileArea a)) a b ||
            (fun a b => decide (tileArea b ≤ tileArea a)) b a) = true := by
        intro a b
        simp only [Bool.or_eq_true, decide_eq_true_eq]
        exact le_total (tileArea b) (tileArea a)
      have hs := List.sorted_mergeSort htrans htot tiles
      exact hs.imp (fun h => by simpa using h)
    · exact List.mergeSort_perm tiles _
  · intro g c ts
    induction ts with
    | nil => intro _; rfl
    | cons t rest ih =>
      intro h
      have ht : isSingleCell t = true := h t (List.mem_cons_self t rest)
      have hrest := ih (fun t2 ht2 => h t2 (List.mem_cons_of_mem t ht2))
      unfold tryTilesAt
      rw [if_pos ht]
      exact hrest
  · intro g tiles rs cc cell hc hst
    exact foldSingle_preserves (tiles.filter isSingleCell) (g.map Prod.fst)
      (g, rs) cc cell hc hst

/-- C6 witness: an occupied cell survives the single-cell pass unchanged. -/
theorem C6_floor_fill_order_witness :
    findCell (singleCellPass grid1Occ [sampleTile1]
        (FRandomStream.ofSeed 0)).1 ⟨0, 0⟩ = some (cellOccAt ⟨0, 0⟩) :=
  C6_floor_fill_order.2.2.2 grid1Occ [sampleTile1] (FRandomStream.ofSeed 0)
    ⟨0, 0⟩ (cellOccAt ⟨0, 0⟩) (by decide) (by decide)

end ClaimC6

end DungeonGen
